import Mathlib

/-!
Verification of the tgba core against its specification.

This file gives a shallow embedding, in Lean, of the two source files of the
repository — `src/tgba-core/src/backup/flash.rs` (the flash backup
controller) and `src/tgba-core/src/lcd.rs` (the LCD pipeline) — and proves or
refutes the specification's claims about them.

Modelling conventions:
- Rust machine integers become `Nat`; wherever the source masks or casts
  (`addr & 0xFFFF`, `as u8`, bit-field stores), the model applies the same
  mask (`% 2^w`, `&&&`).
- Byte arrays (`Vec<u8>`) become total functions `Nat → Nat` together with an
  explicit length where the source consults `len()`.
- Functions that can panic (`panic!`, `assert!`, `unreachable!`) return
  `Option`; `none` marks the panic.
-/

namespace Tgba

/-! ## Flash backup controller (`src/tgba-core/src/backup/flash.rs`) -/

/-- Model of `enum CommandContext { None, Erase }` (flash.rs). -/
inductive CommandContext where
  | none
  | erase
deriving DecidableEq

/-- Model of `enum ReadMode { Data, ChipId }` (flash.rs). -/
inductive ReadMode where
  | data
  | chipId
deriving DecidableEq

/-- Model of `enum State { WaitForCommand(usize, CommandContext), WriteSingleByte, BankChange }`
(flash.rs). -/
inductive FlashState where
  | waitForCommand (step : Nat) (ctx : CommandContext)
  | writeSingleByte
  | bankChange
deriving DecidableEq

/-- Model of `struct Flash` (flash.rs). `data` is the backing byte array, modelled as a
total function together with its length `size` (the source's `data.len()`,
64 KiB or 128 KiB). -/
structure Flash where
  state : FlashState
  read_mode : ReadMode
  bank : Nat
  data : Nat → Nat
  size : Nat

/-- Model of `Flash::new(size)`: idle state, `Data` read mode, bank 0, array filled
with `0xFF` (flash.rs, `new`). -/
def Flash.new (size : Nat) : Flash :=
  { state := .waitForCommand 0 .none
    read_mode := .data
    bank := 0
    data := fun _ => 0xFF
    size := size }

/-- Model of `Flash::read` (flash.rs lines 49–79). The address is masked to 16 bits; in
`ChipId` mode device-identification bytes are returned (SST for 64 KiB, Sanyo
for 128 KiB), in `Data` mode the byte at `bank*0x10000 + (addr & 0xFFFF)`. -/
def Flash.read (f : Flash) (addr : Nat) : Nat :=
  let addr := addr % 0x10000
  match f.read_mode with
  | .chipId =>
    if f.size = 64 * 1024 then
      if addr = 0x0000 then 0xBF else if addr = 0x0001 then 0xD4 else 0
    else
      if addr = 0x0000 then 0x62 else if addr = 0x0001 then 0x13 else 0
  | .data => f.data (f.bank * 0x10000 + addr % 0x10000)

/-- Model of `Flash::write` (flash.rs lines 81–152). The `match (*step, addr, data)`
arms are translated, in source order, to a cascade of conditionals (a Rust
match arm whose guard fails falls through to the next arm). `none` models the
two panics (`0xF0` without having entered ChipId mode, and the asserts of
`BankChange`). The fall-through arm only logs and leaves the state intact. -/
def Flash.write (f : Flash) (addr dat : Nat) : Option Flash :=
  let addr := addr % 0x10000
  match f.state with
  | .waitForCommand step ctx =>
    if step = 0 ∧ addr = 0x5555 ∧ dat = 0xAA then
      some { f with state := .waitForCommand 1 ctx }
    else if step = 1 ∧ addr = 0x2AAA ∧ dat = 0x55 then
      some { f with state := .waitForCommand 2 ctx }
    else if step = 2 ∧ addr = 0x5555 ∧ dat = 0x90 ∧ ctx = .none then
      some { f with read_mode := .chipId, state := .waitForCommand 0 .none }
    else if step = 2 ∧ addr = 0x5555 ∧ dat = 0xF0 ∧ ctx = .none then
      if f.read_mode ≠ .chipId then none
      else some { f with read_mode := .data, state := .waitForCommand 0 .none }
    else if step = 2 ∧ addr = 0x5555 ∧ dat = 0x80 then
      some { f with state := .waitForCommand 0 .erase }
    else if step = 2 ∧ addr = 0x5555 ∧ dat = 0x10 ∧ ctx = .erase then
      some { f with data := fun a => if a < f.size then 0xFF else f.data a
                    state := .waitForCommand 0 .none }
    else if step = 2 ∧ dat = 0x30 ∧ ctx = .erase then
      let sector := addr / 0x1000
      some { f with
              data := fun a =>
                if sector * 0x1000 ≤ a ∧ a < (sector + 1) * 0x1000 then 0xFF
                else f.data a
              state := .waitForCommand 0 .none }
    else if step = 2 ∧ addr = 0x5555 ∧ dat = 0xA0 then
      some { f with state := .writeSingleByte }
    else if step = 2 ∧ addr = 0x5555 ∧ dat = 0xB0 then
      some { f with state := .bankChange }
    else
      some f
  | .writeSingleByte =>
    some { f with
            data := fun a =>
              if a = f.bank * 0x10000 + addr % 0x10000 then f.data a &&& dat
              else f.data a
            state := .waitForCommand 0 .none }
  | .bankChange =>
    if addr = 0 ∧ dat < f.size / (64 * 1024) then
      some { f with bank := dat, state := .waitForCommand 0 .none }
    else none

/-- The `(step, addr, data, ctx)` combinations that select one of the explicit
match arms of `Flash::write` in the `WaitForCommand` state (flash.rs lines
87–130); everything else falls through to the logging arm. -/
def Flash.recognized (step addr dat : Nat) (ctx : CommandContext) : Prop :=
  (step = 0 ∧ addr = 0x5555 ∧ dat = 0xAA) ∨
  (step = 1 ∧ addr = 0x2AAA ∧ dat = 0x55) ∨
  (step = 2 ∧ addr = 0x5555 ∧ dat = 0x90 ∧ ctx = .none) ∨
  (step = 2 ∧ addr = 0x5555 ∧ dat = 0xF0 ∧ ctx = .none) ∨
  (step = 2 ∧ addr = 0x5555 ∧ dat = 0x80) ∨
  (step = 2 ∧ addr = 0x5555 ∧ dat = 0x10 ∧ ctx = .erase) ∨
  (step = 2 ∧ dat = 0x30 ∧ ctx = .erase) ∨
  (step = 2 ∧ addr = 0x5555 ∧ dat = 0xA0) ∨
  (step = 2 ∧ addr = 0x5555 ∧ dat = 0xB0)

instance (step addr dat : Nat) (ctx : CommandContext) :
    Decidable (Flash.recognized step addr dat ctx) := by
  unfold Flash.recognized; infer_instance

/-- A sequence of `write` calls, stopping at the first panic. -/
def Flash.writeSeq (f : Flash) (cmds : List (Nat × Nat)) : Option Flash :=
  cmds.foldlM (fun g c => g.write c.1 c.2) f

/-- Command sequence exhibiting the bank-handling defect of sector erase on a
128 KiB chip: switch to bank 1, program byte 0 of bank 1 to `0x00`, then issue
a sector-erase for the sector containing address 0. -/
def sectorEraseScenario : List (Nat × Nat) :=
  [(0x5555, 0xAA), (0x2AAA, 0x55), (0x5555, 0xB0), (0x0000, 0x01),
   (0x5555, 0xAA), (0x2AAA, 0x55), (0x5555, 0xA0), (0x0000, 0x00),
   (0x5555, 0xAA), (0x2AAA, 0x55), (0x5555, 0x80),
   (0x5555, 0xAA), (0x2AAA, 0x55), (0x0000, 0x30)]

/-- A concrete idle 64 KiB flash, used to instantiate theorems with
hypotheses. -/
def flash64 : Flash := Flash.new (64 * 1024)

/-! ## LCD timing engine (`src/tgba-core/src/lcd.rs`, `tick` / `tick_dot`) -/

/-- Modelled from the spec: `src/consts.rs` is not under `src/`. The spec fixes
`SCREEN_WIDTH = 240` and `SCREEN_HEIGHT = 160` and calls the remaining three
"fixed constants of the hosted hardware"; for that hardware a line is 308 dots,
a frame 228 lines, and a dot 4 master clocks. -/
def SCREEN_WIDTH : Nat := 240

/-- Modelled from the spec: see `SCREEN_WIDTH`. -/
def SCREEN_HEIGHT : Nat := 160

/-- Modelled from the spec: see `SCREEN_WIDTH`. -/
def DOTS_PER_LINE : Nat := 308

/-- Modelled from the spec: see `SCREEN_WIDTH`. -/
def LINES_PER_FRAME : Nat := 228

/-- Modelled from the spec: see `SCREEN_WIDTH`. -/
def CLOCK_PER_DOT : Nat := 4

/-- Modelled from the spec: `src/interrupt.rs` is not under `src/`; the spec's
`InterruptSink::set_interrupt(kind)` "signals HBlank, VBlank, VCount". -/
inductive InterruptKind where
  | hblank
  | vblank
  | vcount
deriving DecidableEq

/-- The timing projection of `struct Lcd` (lcd.rs): exactly the fields that
`tick` / `tick_dot` read or write, other than through `render_line` and
`Bg::frame_start`. `render_line` mutates only the line buffers, the frame
buffer and the affine working points, and `frame_start` only the affine
working points; none of those are fields of this projection, so `tick_dot`
restricted to it is modelled exactly. -/
structure LcdTiming where
  vblank_irq_enable : Bool
  hblank_irq_enable : Bool
  vcount_irq_enable : Bool
  vcount : Nat
  prev_clock : Nat
  fraction : Nat
  x : Nat
  y : Nat
  frame : Nat

/-- The timing fields of `Lcd::new()` / `Lcd::default()`: everything zero or
false. -/
def initLcdT : LcdTiming :=
  { vblank_irq_enable := false
    hblank_irq_enable := false
    vcount_irq_enable := false
    vcount := 0
    prev_clock := 0
    fraction := 0
    x := 0
    y := 0
    frame := 0 }

/-- The `0x004` (DISPSTAT) arm of `Lcd::write16` (lcd.rs lines 460–466),
restricted to the timing projection: bits 3–5 set the three IRQ enables and
bits 8–15 set `vcount`. -/
def LcdTiming.writeDispstat (s : LcdTiming) (dat : Nat) : LcdTiming :=
  let dat := dat % 0x10000
  { s with
    vblank_irq_enable := dat.testBit 3
    hblank_irq_enable := dat.testBit 4
    vcount_irq_enable := dat.testBit 5
    vcount := dat / 2 ^ 8 % 2 ^ 8 }

/-- Model of `Lcd::vblank` (lcd.rs lines 304–306). -/
def LcdTiming.vblank (s : LcdTiming) : Bool :=
  decide (s.y ≥ SCREEN_HEIGHT)

/-- Model of `Lcd::hblank` (lcd.rs lines 308–310). -/
def LcdTiming.hblank (s : LcdTiming) : Bool :=
  decide (s.y < SCREEN_HEIGHT ∧ s.x ≥ SCREEN_WIDTH)

/-- Model of `Lcd::tick_dot` (lcd.rs lines 257–302) on the timing projection. Returns
the successor state together with the interrupts raised, in source order.
Where the source invokes `render_line()` and, at the frame wrap,
`Bg::frame_start()`, the projection is unchanged (see `LcdTiming`). Note the
nested conditional of lines 285–289: the VCount interrupt is raised only when
`vblank_irq_enable` is also set. -/
def tickDot (s : LcdTiming) : LcdTiming × List InterruptKind :=
  let x := s.x + 1
  let irqsH : List InterruptKind :=
    if s.y < SCREEN_HEIGHT ∧ x = SCREEN_WIDTH then
      if s.hblank_irq_enable then [.hblank] else []
    else []
  if x ≥ DOTS_PER_LINE then
    let x := x - DOTS_PER_LINE
    let y := s.y + 1
    let irqsV : List InterruptKind :=
      if y = SCREEN_HEIGHT then
        if s.vblank_irq_enable then [.vblank] else []
      else []
    let irqsC : List InterruptKind :=
      if y = s.vcount ∧ s.vcount_irq_enable then
        if s.vblank_irq_enable then [.vcount] else []
      else []
    if y ≥ LINES_PER_FRAME then
      ({ s with x := x, y := y - LINES_PER_FRAME, frame := s.frame + 1 },
        irqsH ++ irqsV ++ irqsC)
    else
      ({ s with x := x, y := y }, irqsH ++ irqsV ++ irqsC)
  else
    ({ s with x := x }, irqsH)

/-- Iterates `tick_dot` `n` times, with the raised interrupts concatenated in
order. -/
def tickDots : Nat → LcdTiming → LcdTiming × List InterruptKind
  | 0, s => (s, [])
  | n + 1, s =>
    let p := tickDots n s
    let q := tickDot p.1
    (q.1, p.2 ++ q.2)

/-- Model of `Lcd::tick` (lcd.rs lines 244–255): `elapsed = now - prev_clock` is added
to `fraction`, and the `while fraction >= CLOCK_PER_DOT` loop runs `tick_dot`
exactly `fraction / CLOCK_PER_DOT` times, leaving `fraction % CLOCK_PER_DOT`.
The caller guarantees `now ≥ prev_clock` (monotonic clock). -/
def tick (s : LcdTiming) (now : Nat) : LcdTiming × List InterruptKind :=
  let elapsed := now - s.prev_clock
  let f := s.fraction + elapsed
  tickDots (f / CLOCK_PER_DOT)
    { s with prev_clock := now, fraction := f % CLOCK_PER_DOT }

/-- A sequence of `tick` calls at the given clock values, concatenating the
raised interrupts. -/
def runTicks : LcdTiming → List Nat → LcdTiming × List InterruptKind
  | s, [] => (s, [])
  | s, now :: rest =>
    let p := tick s now
    let q := runTicks p.1 rest
    (q.1, p.2 ++ q.2)

/-- Dot index of a timing state within its frame: `y` lines plus `x` dots. -/
def pos (s : LcdTiming) : Nat :=
  s.y * DOTS_PER_LINE + s.x

/-- The timing invariant established by `Lcd::new` and preserved by `tick`:
the raster position is inside the frame and the fractional clock remainder is
below one dot. -/
def InvT (s : LcdTiming) : Prop :=
  s.x < DOTS_PER_LINE ∧ s.y < LINES_PER_FRAME ∧ s.fraction < CLOCK_PER_DOT

instance (s : LcdTiming) : Decidable (InvT s) := by
  unfold InvT; infer_instance

/-- Number of dot indices `k < n` at which a run started at in-frame dot
position `p` crosses the VBlank transition (the dot that moves `(x, y)` from
`(DOTS_PER_LINE - 1, SCREEN_HEIGHT - 1)` to the first dot of line
`SCREEN_HEIGHT`, i.e. position `SCREEN_HEIGHT * DOTS_PER_LINE - 1`). -/
def vbHits (p n : Nat) : Nat :=
  (List.range n).countP
    (fun k => decide ((p + k) % (LINES_PER_FRAME * DOTS_PER_LINE)
      = SCREEN_HEIGHT * DOTS_PER_LINE - 1))

/-- The reset timing state with the VBlank IRQ enable bit set (DISPSTAT bit
3), used to instantiate theorems with hypotheses. -/
def lcdVBlankEnabled : LcdTiming :=
  { initLcdT with vblank_irq_enable := true }

/-! ## LCD register file, line buffers and compositor (`src/tgba-core/src/lcd.rs`) -/

/-- Model of `struct SurfaceAttr(u16)` (lcd.rs lines 69–106) is a priority/kind/effect
attribute packed into one 16-bit word; it is modelled as the packed `Nat`
with the source's mask-and-shift accessors. `SurfaceAttr.new` applies
`set_priority`, `set_kind`, `set_effect` in source order to `SurfaceAttr(0)`.
-/
def SurfaceAttr.setPriority (a p : Nat) : Nat :=
  a &&& 0xFFF8 ||| p

/-- Model of `SurfaceAttr::priority` (bits 0–2). -/
def SurfaceAttr.priority (a : Nat) : Nat :=
  a &&& 7

/-- Model of `SurfaceAttr::set_kind` (bits 3–5). -/
def SurfaceAttr.setKind (a k : Nat) : Nat :=
  a &&& 0xFFC7 ||| k <<< 3

/-- Model of `SurfaceAttr::kind` (bits 3–5). -/
def SurfaceAttr.kind (a : Nat) : Nat :=
  a >>> 3 &&& 7

/-- Model of `SurfaceAttr::set_effect` (clears bits 6–7 and ors in `effect << 6`). -/
def SurfaceAttr.setEffect (a e : Nat) : Nat :=
  a &&& 0xFF3F ||| e <<< 6

/-- Model of `SurfaceAttr::effect` (`(self.0 >> 6) as u8`). -/
def SurfaceAttr.effect (a : Nat) : Nat :=
  a >>> 6 % 2 ^ 8

/-- Model of `SurfaceAttr::new(priority, kind, effect)`. -/
def SurfaceAttr.new (p k e : Nat) : Nat :=
  SurfaceAttr.setEffect (SurfaceAttr.setKind (SurfaceAttr.setPriority 0 p) k) e

/-- Model of `struct ObjAttr(u8)` (lcd.rs lines 195–219): per-pixel object attribute
packed into one byte (priority bits 0–1, semi-transparent bit 2, window
bit 3). -/
def ObjAttr.priority (a : Nat) : Nat :=
  a &&& 0x3

/-- Model of `ObjAttr::semi_transparent`. -/
def ObjAttr.semiTransparent (a : Nat) : Bool :=
  a &&& 4 != 0

/-- Model of `ObjAttr::window`. -/
def ObjAttr.objWindow (a : Nat) : Bool :=
  a &&& 8 != 0

/-- Model of `struct Bg` (lcd.rs lines 136–158). -/
structure Bg where
  priority : Nat
  char_base_block : Nat
  mosaic : Bool
  color_mode : Bool
  screen_base_block : Nat
  area_overflow : Bool
  screen_size : Nat
  hofs : Nat
  vofs : Nat
  dx : Nat
  dmx : Nat
  dy : Nat
  dmy : Nat
  x : Nat
  y : Nat
  cx : Nat
  cy : Nat

/-- Model of `struct Window` (lcd.rs lines 167–173). -/
structure Window where
  l : Nat
  r : Nat
  u : Nat
  d : Nat

/-- Model of `struct WindowCtrl` (lcd.rs lines 175–180). `display_bg` is the source's
`[bool; 4]`; only indices 0–3 are ever consulted. -/
structure WindowCtrl where
  display_bg : Nat → Bool
  display_obj : Bool
  color_special_effect : Bool

/-- Model of `struct BlendCtrl` (lcd.rs lines 182–193); `target0`/`target1` are the
source's `target: [u8; 2]`. -/
structure BlendCtrl where
  effect : Nat
  target0 : Nat
  target1 : Nat
  eva : Nat
  evb : Nat
  evy : Nat

/-- Model of `struct LineBuf` (lcd.rs lines 60–67): per-scanline scratch buffers, each
of length `SCREEN_WIDTH`, modelled as total functions (layer index first for
the two-layer buffers). -/
structure LineBuf where
  bg : Nat → Nat → Nat
  obj : Nat → Nat
  obj_attr : Nat → Nat
  surface : Nat → Nat → Nat
  surface_attr : Nat → Nat → Nat
  finished : Nat → Nat

/-- Model of `LineBuf::default` (lcd.rs lines 108–120). -/
def LineBuf.default : LineBuf :=
  { bg := fun _ _ => 0x8000
    obj := fun _ => 0
    obj_attr := fun _ => 0
    surface := fun _ _ => 0x8000
    surface_attr := fun _ _ => 0
    finished := fun _ => 0 }

/-- Model of `LineBuf::clear` (lcd.rs lines 122–134): object and background buffers are
reset to the transparent marker, both surface layers take the backdrop color
and the backdrop attribute `SurfaceAttr::new(4, 5, 0)`; `finished` is left as
is. -/
def LineBuf.clear (lb : LineBuf) (backdrop : Nat) : LineBuf :=
  { lb with
    obj_attr := fun _ => 0
    obj := fun _ => 0x8000
    bg := fun _ _ => 0x8000
    surface := fun _ _ => backdrop
    surface_attr := fun _ _ => SurfaceAttr.new 4 5 0 }

/-- Model of `Lcd::put_surface_pixel` (lcd.rs lines 1316–1327): insertion into the
two-entry priority stack at pixel `x`. Strictly better priority than layer 0
demotes layer 0 to layer 1; otherwise strictly better than layer 1 replaces
layer 1; otherwise the pixel is dropped (ties keep the seated pixel). -/
def putSurfacePixel (lb : LineBuf) (x col attr : Nat) : LineBuf :=
  if SurfaceAttr.priority (lb.surface_attr 0 x) > SurfaceAttr.priority attr then
    { lb with
      surface := fun i x' =>
        if i = 1 ∧ x' = x then lb.surface 0 x
        else if i = 0 ∧ x' = x then col
        else lb.surface i x'
      surface_attr := fun i x' =>
        if i = 1 ∧ x' = x then lb.surface_attr 0 x
        else if i = 0 ∧ x' = x then attr
        else lb.surface_attr i x' }
  else if SurfaceAttr.priority (lb.surface_attr 1 x) > SurfaceAttr.priority attr then
    { lb with
      surface := fun i x' => if i = 1 ∧ x' = x then col else lb.surface i x'
      surface_attr := fun i x' => if i = 1 ∧ x' = x then attr else lb.surface_attr i x' }
  else
    lb

/-- Model of `struct Lcd` (lcd.rs lines 16–58). `vram`, `oam` and the frame buffer are
consulted only by the rasterizers and the frame output, which no claim
touches, and are omitted; `palette` is kept for the backdrop color. The
timing fields also live here, as in the source (`tick` itself is modelled on
the `LcdTiming` projection above). -/
structure Lcd where
  palette : Nat → Nat
  bg_mode : Nat
  display_frame_select : Bool
  hblank_obj_process : Bool
  obj_format : Bool
  force_blank : Bool
  display_bg : Nat → Bool
  display_obj : Bool
  display_window : Nat → Bool
  display_obj_window : Bool
  vblank_irq_enable : Bool
  hblank_irq_enable : Bool
  vcount_irq_enable : Bool
  vcount : Nat
  bg : Nat → Bg
  window : Nat → Window
  winin : Nat → WindowCtrl
  winout : WindowCtrl
  objwin : WindowCtrl
  bg_mosaic_h : Nat
  bg_mosaic_v : Nat
  obj_mosaic_h : Nat
  obj_mosaic_v : Nat
  blend_ctrl : BlendCtrl
  prev_clock : Nat
  fraction : Nat
  x : Nat
  y : Nat
  frame : Nat
  line_buf : LineBuf

/-- The all-zero background of `Bg::default()`. -/
def Bg.default : Bg :=
  { priority := 0, char_base_block := 0, mosaic := false, color_mode := false
    screen_base_block := 0, area_overflow := false, screen_size := 0
    hofs := 0, vofs := 0, dx := 0, dmx := 0, dy := 0, dmy := 0
    x := 0, y := 0, cx := 0, cy := 0 }

/-- Model of `Lcd::new()` (lcd.rs lines 222–230) restricted to the modelled fields:
palette zero, every register field zero or false. -/
def Lcd.new : Lcd :=
  { palette := fun _ => 0
    bg_mode := 0, display_frame_select := false, hblank_obj_process := false
    obj_format := false, force_blank := false
    display_bg := fun _ => false, display_obj := false
    display_window := fun _ => false, display_obj_window := false
    vblank_irq_enable := false, hblank_irq_enable := false
    vcount_irq_enable := false, vcount := 0
    bg := fun _ => Bg.default
    window := fun _ => ⟨0, 0, 0, 0⟩
    winin := fun _ => ⟨fun _ => false, false, false⟩
    winout := ⟨fun _ => false, false, false⟩
    objwin := ⟨fun _ => false, false, false⟩
    bg_mosaic_h := 0, bg_mosaic_v := 0, obj_mosaic_h := 0, obj_mosaic_v := 0
    blend_ctrl := ⟨0, 0, 0, 0, 0, 0⟩
    prev_clock := 0, fraction := 0, x := 0, y := 0, frame := 0
    line_buf := LineBuf.default }

/-- Model of `util::read16(&self.palette, i * 2) & 0x7FFF`: `Lcd::bg_palette256`
(lcd.rs lines 1360–1362), little-endian 16-bit read masked to 15 bits. -/
def Lcd.bgPalette256 (l : Lcd) (i : Nat) : Nat :=
  (l.palette (i * 2) + l.palette (i * 2 + 1) * 2 ^ 8) &&& 0x7FFF

/-- Model of `Lcd::vblank` on the full register model. -/
def Lcd.vblank (l : Lcd) : Bool :=
  decide (l.y ≥ SCREEN_HEIGHT)

/-- Model of `Lcd::hblank` on the full register model. -/
def Lcd.hblank (l : Lcd) : Bool :=
  decide (l.y < SCREEN_HEIGHT ∧ l.x ≥ SCREEN_WIDTH)

/-- Model of `Lcd::vcount_match` on the full register model. -/
def Lcd.vcountMatch (l : Lcd) : Bool :=
  decide (l.y = l.vcount)

/-- The BGxCNT read value (lcd.rs lines 351–364): the `pack!` of the
background fields, with bits 4–5 packed from `!0` (i.e. always set). Each
field is truncated to its bit range as `pack!`'s bit-field store does. -/
def bgCntVal (b : Bg) : Nat :=
  b.priority % 4 + b.char_base_block % 4 * 2 ^ 2 + 3 * 2 ^ 4 +
    b.mosaic.toNat * 2 ^ 6 + b.color_mode.toNat * 2 ^ 7 +
    b.screen_base_block % 2 ^ 5 * 2 ^ 8 + b.area_overflow.toNat * 2 ^ 13 +
    b.screen_size % 4 * 2 ^ 14

/-- The six control bits of one `WindowCtrl`, as packed by the WININ/WINOUT
read (lcd.rs lines 392–413). -/
def ctrlVal (c : WindowCtrl) : Nat :=
  (c.display_bg 0).toNat + (c.display_bg 1).toNat * 2 + (c.display_bg 2).toNat * 2 ^ 2 +
    (c.display_bg 3).toNat * 2 ^ 3 + c.display_obj.toNat * 2 ^ 4 +
    c.color_special_effect.toNat * 2 ^ 5

/-- Model of `Lcd::read16` (lcd.rs lines 316–436). Offsets outside `0x000–0x05E` hit
`unreachable!`, modelled as `none`. Write-only registers read 0. -/
def Lcd.read16 (l : Lcd) (addr : Nat) : Option Nat :=
  if addr = 0x000 then
    some (l.bg_mode % 8 + l.display_frame_select.toNat * 2 ^ 4 +
      l.hblank_obj_process.toNat * 2 ^ 5 + l.obj_format.toNat * 2 ^ 6 +
      l.force_blank.toNat * 2 ^ 7 + (l.display_bg 0).toNat * 2 ^ 8 +
      (l.display_bg 1).toNat * 2 ^ 9 + (l.display_bg 2).toNat * 2 ^ 10 +
      (l.display_bg 3).toNat * 2 ^ 11 + l.display_obj.toNat * 2 ^ 12 +
      (l.display_window 0).toNat * 2 ^ 13 + (l.display_window 1).toNat * 2 ^ 14 +
      l.display_obj_window.toNat * 2 ^ 15)
  else if addr = 0x002 then some 0
  else if addr = 0x004 then
    some (l.vblank.toNat + l.hblank.toNat * 2 + l.vcountMatch.toNat * 2 ^ 2 +
      l.vblank_irq_enable.toNat * 2 ^ 3 + l.hblank_irq_enable.toNat * 2 ^ 4 +
      l.vcount_irq_enable.toNat * 2 ^ 5 + l.vcount % 2 ^ 8 * 2 ^ 8)
  else if addr = 0x006 then some (l.y % 2 ^ 16)
  else if addr = 0x008 ∨ addr = 0x00A ∨ addr = 0x00C ∨ addr = 0x00E then
    some (bgCntVal (l.bg ((addr - 0x008) / 2)))
  else if addr = 0x010 ∨ addr = 0x014 ∨ addr = 0x018 ∨ addr = 0x01C then some 0
  else if addr = 0x012 ∨ addr = 0x016 ∨ addr = 0x01A ∨ addr = 0x01E then some 0
  else if addr = 0x020 ∨ addr = 0x030 then some 0
  else if addr = 0x022 ∨ addr = 0x032 then some 0
  else if addr = 0x024 ∨ addr = 0x034 then some 0
  else if addr = 0x026 ∨ addr = 0x036 then some 0
  else if addr = 0x028 ∨ addr = 0x038 then some 0
  else if addr = 0x02A ∨ addr = 0x03A then some 0
  else if addr = 0x02C ∨ addr = 0x03C then some 0
  else if addr = 0x02E ∨ addr = 0x03E then some 0
  else if addr = 0x040 ∨ addr = 0x042 then some 0
  else if addr = 0x044 ∨ addr = 0x046 then some 0
  else if addr = 0x048 then some (ctrlVal (l.winin 0) + ctrlVal (l.winin 1) * 2 ^ 8)
  else if addr = 0x04A then some (ctrlVal l.winout + ctrlVal l.objwin * 2 ^ 8)
  else if addr = 0x04C ∨ addr = 0x04E then some 0
  else if addr = 0x050 then
    some (l.blend_ctrl.target0 % 2 ^ 6 + l.blend_ctrl.effect % 4 * 2 ^ 6 +
      l.blend_ctrl.target1 % 2 ^ 6 * 2 ^ 8)
  else if addr = 0x052 then
    some (l.blend_ctrl.eva % 2 ^ 5 + l.blend_ctrl.evb % 2 ^ 5 * 2 ^ 8)
  else if addr = 0x054 then some 0
  else if 0x056 ≤ addr ∧ addr ≤ 0x05E then some 0
  else none

/-- The `load` of a 6-bit `WindowCtrl` group from a WININ/WINOUT write
(lcd.rs lines 556–576), with `base = i * 8`. -/
def WindowCtrl.load (dat base : Nat) : WindowCtrl :=
  { display_bg := fun j => dat.testBit (base + j)
    display_obj := dat.testBit (base + 4)
    color_special_effect := dat.testBit (base + 5) }

/-- Model of `Lcd::write16` (lcd.rs lines 438–611). Offsets outside `0x000–0x05E` hit
`unreachable!`, modelled as `none`; read-only offsets and `0x056–0x05E` are
ignored. Note that for the affine reference points (`0x028–0x03E`) both the
low-half and the high-half writes copy the full stored value into the working
copy `cx`/`cy`, and that the `i` index for `0x02C`–`0x03E` is computed from
`addr - 0x028` as in the source. -/
def Lcd.write16 (l : Lcd) (addr dat : Nat) : Option Lcd :=
  let dat := dat % 2 ^ 16
  if addr = 0x000 then
    some { l with
      bg_mode := dat % 8
      display_frame_select := dat.testBit 4
      hblank_obj_process := dat.testBit 5
      obj_format := dat.testBit 6
      force_blank := dat.testBit 7
      display_bg := (fun i =>
        if i = 0 then dat.testBit 8 else if i = 1 then dat.testBit 9
        else if i = 2 then dat.testBit 10 else if i = 3 then dat.testBit 11
        else l.display_bg i)
      display_obj := dat.testBit 12
      display_window := (fun i =>
        if i = 0 then dat.testBit 13 else if i = 1 then dat.testBit 14
        else l.display_window i)
      display_obj_window := dat.testBit 15 }
  else if addr = 0x002 then some l
  else if addr = 0x004 then
    some { l with
      vblank_irq_enable := dat.testBit 3
      hblank_irq_enable := dat.testBit 4
      vcount_irq_enable := dat.testBit 5
      vcount := dat / 2 ^ 8 % 2 ^ 8 }
  else if addr = 0x006 then some l
  else if addr = 0x008 ∨ addr = 0x00A ∨ addr = 0x00C ∨ addr = 0x00E then
    let i := (addr - 0x008) / 2
    some { l with bg := (fun j =>
      if j = i then
        { l.bg j with
          priority := dat % 4
          char_base_block := dat / 2 ^ 2 % 4
          mosaic := dat.testBit 6
          color_mode := dat.testBit 7
          screen_base_block := dat / 2 ^ 8 % 2 ^ 5
          area_overflow :=
            (if i = 2 ∨ i = 3 then dat.testBit 13 else (l.bg j).area_overflow)
          screen_size := dat / 2 ^ 14 % 4 }
      else l.bg j) }
  else if addr = 0x010 ∨ addr = 0x014 ∨ addr = 0x018 ∨ addr = 0x01C then
    let i := (addr - 0x010) / 4
    some { l with bg := (fun j =>
      if j = i then { l.bg j with hofs := dat &&& 0x1FF } else l.bg j) }
  else if addr = 0x012 ∨ addr = 0x016 ∨ addr = 0x01A ∨ addr = 0x01E then
    let i := (addr - 0x012) / 4
    some { l with bg := (fun j =>
      if j = i then { l.bg j with vofs := dat &&& 0x1FF } else l.bg j) }
  else if addr = 0x020 ∨ addr = 0x030 then
    let i := 2 + (addr - 0x020) / 0x10
    some { l with bg := (fun j =>
      if j = i then { l.bg j with dx := dat } else l.bg j) }
  else if addr = 0x022 ∨ addr = 0x032 then
    let i := 2 + (addr - 0x022) / 0x10
    some { l with bg := (fun j =>
      if j = i then { l.bg j with dmx := dat } else l.bg j) }
  else if addr = 0x024 ∨ addr = 0x034 then
    let i := 2 + (addr - 0x024) / 0x10
    some { l with bg := (fun j =>
      if j = i then { l.bg j with dy := dat } else l.bg j) }
  else if addr = 0x026 ∨ addr = 0x036 then
    let i := 2 + (addr - 0x026) / 0x10
    some { l with bg := (fun j =>
      if j = i then { l.bg j with dmy := dat } else l.bg j) }
  else if addr = 0x028 ∨ addr = 0x038 then
    let i := 2 + (addr - 0x028) / 0x10
    some { l with bg := (fun j =>
      if j = i then
        { l.bg j with
          x := (l.bg j).x / 2 ^ 16 * 2 ^ 16 + dat
          cx := (l.bg j).x / 2 ^ 16 * 2 ^ 16 + dat }
      else l.bg j) }
  else if addr = 0x02A ∨ addr = 0x03A then
    let i := 2 + (addr - 0x028) / 0x10
    some { l with bg := (fun j =>
      if j = i then
        { l.bg j with
          x := (l.bg j).x % 2 ^ 16 + dat % 2 ^ 12 * 2 ^ 16
            + (l.bg j).x / 2 ^ 28 * 2 ^ 28
          cx := (l.bg j).x % 2 ^ 16 + dat % 2 ^ 12 * 2 ^ 16
            + (l.bg j).x / 2 ^ 28 * 2 ^ 28 }
      else l.bg j) }
  else if addr = 0x02C ∨ addr = 0x03C then
    let i := 2 + (addr - 0x028) / 0x10
    some { l with bg := (fun j =>
      if j = i then
        { l.bg j with
          y := (l.bg j).y / 2 ^ 16 * 2 ^ 16 + dat
          cy := (l.bg j).y / 2 ^ 16 * 2 ^ 16 + dat }
      else l.bg j) }
  else if addr = 0x02E ∨ addr = 0x03E then
    let i := 2 + (addr - 0x028) / 0x10
    some { l with bg := (fun j =>
      if j = i then
        { l.bg j with
          y := (l.bg j).y % 2 ^ 16 + dat % 2 ^ 12 * 2 ^ 16
            + (l.bg j).y / 2 ^ 28 * 2 ^ 28
          cy := (l.bg j).y % 2 ^ 16 + dat % 2 ^ 12 * 2 ^ 16
            + (l.bg j).y / 2 ^ 28 * 2 ^ 28 }
      else l.bg j) }
  else if addr = 0x040 ∨ addr = 0x042 then
    let i := (addr - 0x040) / 2
    some { l with window := (fun j =>
      if j = i then { l.window j with l := dat / 2 ^ 8 % 2 ^ 8, r := dat % 2 ^ 8 }
      else l.window j) }
  else if addr = 0x044 ∨ addr = 0x046 then
    let i := (addr - 0x044) / 2
    some { l with window := (fun j =>
      if j = i then { l.window j with u := dat / 2 ^ 8 % 2 ^ 8, d := dat % 2 ^ 8 }
      else l.window j) }
  else if addr = 0x048 then
    some { l with winin := (fun i =>
      if i = 0 then WindowCtrl.load dat 0
      else if i = 1 then WindowCtrl.load dat 8
      else l.winin i) }
  else if addr = 0x04A then
    some { l with winout := WindowCtrl.load dat 0, objwin := WindowCtrl.load dat 8 }
  else if addr = 0x04C then
    some { l with
      bg_mosaic_h := dat % 2 ^ 4
      bg_mosaic_v := dat / 2 ^ 4 % 2 ^ 4
      obj_mosaic_h := dat / 2 ^ 8 % 2 ^ 4
      obj_mosaic_v := dat / 2 ^ 12 % 2 ^ 4 }
  else if addr = 0x04E then some l
  else if addr = 0x050 then
    some { l with blend_ctrl :=
      { l.blend_ctrl with
        effect := dat / 2 ^ 6 % 4
        target0 := dat % 2 ^ 6
        target1 := dat / 2 ^ 8 % 2 ^ 6 } }
  else if addr = 0x052 then
    some { l with blend_ctrl :=
      { l.blend_ctrl with eva := dat % 2 ^ 5, evb := dat / 2 ^ 8 % 2 ^ 5 } }
  else if addr = 0x054 then
    some { l with blend_ctrl := { l.blend_ctrl with evy := dat % 2 ^ 5 } }
  else if 0x056 ≤ addr ∧ addr ≤ 0x05E then some l
  else none

/-- The body of `Lcd::eval_priority`'s per-pixel loop (lcd.rs lines
1257–1313): window membership and effective window control are computed, then
the object pixel and the four background pixels are offered to the surface
stack through `put_surface_pixel`. -/
def evalPriorityPixel (l : Lcd) (lb : LineBuf) (x : Nat) : LineBuf :=
  let y_in_win0 := l.display_window 0 ∧ (l.window 0).u ≤ l.y ∧ l.y ≤ (l.window 0).d
  let y_in_win1 := l.display_window 1 ∧ (l.window 1).u ≤ l.y ∧ l.y ≤ (l.window 1).d
  let winout_enable := l.display_window 0 ∨ l.display_window 1 ∨ l.display_obj_window
  let any : WindowCtrl := ⟨fun _ => true, true, true⟩
  let global_effect := l.blend_ctrl.effect
  let in_win0 := y_in_win0 ∧ (l.window 0).l ≤ x ∧ x ≤ (l.window 0).r
  let in_win1 := y_in_win1 ∧ (l.window 1).l ≤ x ∧ x ≤ (l.window 1).r
  let win_ctrl :=
    if in_win0 then l.winin 0
    else if in_win1 then l.winin 1
    else if ObjAttr.objWindow (lb.obj_attr x) then l.objwin
    else if winout_enable then l.winout
    else any
  let lb1 :=
    if l.display_obj ∧ win_ctrl.display_obj then
      if lb.obj x &&& 0x8000 = 0 then
        let effect :=
          if ¬ win_ctrl.color_special_effect then 0
          else if ObjAttr.semiTransparent (lb.obj_attr x) then 4
          else global_effect
        putSurfacePixel lb x (lb.obj x)
          (SurfaceAttr.new (ObjAttr.priority (lb.obj_attr x)) 4 effect)
      else lb
    else lb
  (List.range 4).foldl
    (fun lb2 i =>
      if l.display_bg i ∧ win_ctrl.display_bg i then
        if lb2.bg i x &&& 0x8000 = 0 then
          let effect :=
            if ¬ win_ctrl.color_special_effect then 0 else global_effect
          putSurfacePixel lb2 x (lb2.bg i x)
            (SurfaceAttr.new (l.bg i).priority i effect)
        else lb2
      else lb2)
    lb1

/-- Model of `Lcd::eval_priority` (lcd.rs lines 1211–1314): the per-pixel loop over the
`SCREEN_WIDTH` pixels of the scanline (the source additionally emits trace
logging on line 0, which has no effect on state). -/
def evalPriority (l : Lcd) : Lcd :=
  { l with line_buf := (List.range SCREEN_WIDTH).foldl (evalPriorityPixel l) l.line_buf }

/-- Surface-stack ordering invariant of a line buffer: at every pixel, layer
0's priority is at most layer 1's. -/
def surfOrd (lb : LineBuf) : Prop :=
  ∀ x, SurfaceAttr.priority (lb.surface_attr 0 x)
    ≤ SurfaceAttr.priority (lb.surface_attr 1 x)

/-! ## Flash theorems -/

/-- C3 (code_bug evidence): on a fresh 128 KiB chip, after switching to bank 1,
programming the byte at bank-1 address `0x0000` to `0x00`, and then issuing the
sector-erase command sequence `(0x5555=0xAA, 0x2AAA=0x55, 0x5555=0x80,
0x5555=0xAA, 0x2AAA=0x55, 0x0000=0x30)`, a read of address `0x0000` still
returns `0x00`, not `0xFF`: the erase of flash.rs line 117 fills absolute
offsets `0x0000..0x1000` of the backing array and ignores the current bank,
while reads are bank-relative. -/
theorem c3_sector_erase_ignores_bank :
    ((Flash.new (128 * 1024)).writeSeq sectorEraseScenario).map
        (fun f => f.read 0x0000) = some 0x00 ∧
      ((Flash.new (128 * 1024)).writeSeq sectorEraseScenario).map
        (fun f => f.read 0x0000) ≠ some 0xFF := by
  constructor <;> decide

/-- C7: from the idle command-wait state (any context) in `Data` read mode, the
byte-program sequence `(0x5555=0xAA, 0x2AAA=0x55, 0x5555=0xA0, a=v)` succeeds,
a subsequent `read a` returns the bitwise AND of the previously stored byte of
the current bank with `v`, and the controller is back in the idle command-wait
state with bank and read mode unchanged. -/
theorem c7_program_then_read (f : Flash) (ctx : CommandContext) (a v : Nat)
    (hstate : f.state = .waitForCommand 0 ctx) (hmode : f.read_mode = .data) :
    ∃ f', f.writeSeq [(0x5555, 0xAA), (0x2AAA, 0x55), (0x5555, 0xA0), (a, v)] = some f' ∧
      f'.read a = f.data (f.bank * 0x10000 + a % 0x10000) &&& v ∧
      f'.state = .waitForCommand 0 .none ∧
      f'.read_mode = .data ∧
      f'.bank = f.bank ∧
      f'.size = f.size := by
  obtain ⟨st, rm, bank, dat, size⟩ := f
  simp only at hstate hmode
  subst hstate hmode
  refine ⟨_, rfl, ?_, rfl, rfl, rfl, rfl⟩
  simp only [Flash.read, Flash.write]
  have h1 : a % 0x10000 % 0x10000 = a % 0x10000 := by omega
  simp [h1]

/-- C7 witness: the program-then-read round trip evaluated on a concrete fresh
64 KiB chip at address `0x1234` with data `0x55`. -/
theorem c7_program_then_read_witness :
    flash64.state = .waitForCommand 0 .none ∧ flash64.read_mode = .data ∧
      ∃ f', flash64.writeSeq [(0x5555, 0xAA), (0x2AAA, 0x55), (0x5555, 0xA0), (0x1234, 0x55)] = some f' ∧
        f'.read 0x1234 = flash64.data (flash64.bank * 0x10000 + 0x1234 % 0x10000) &&& 0x55 ∧
        f'.state = .waitForCommand 0 .none ∧
        f'.read_mode = .data ∧
        f'.bank = flash64.bank ∧
        f'.size = flash64.size :=
  ⟨rfl, rfl, c7_program_then_read flash64 .none 0x1234 0x55 rfl rfl⟩

/-- C10: in the `WaitForCommand` state, a write whose `(step, addr, data)`
triple (with the address masked to 16 bits, and under the current context)
selects none of the explicit command arms of flash.rs lines 87–130 leaves the
flash entirely unchanged — same data array, bank and read mode, and the state
keeps the same step counter and context. -/
theorem c10_unrecognized_write_is_noop (f : Flash) (step : Nat)
    (ctx : CommandContext) (addr dat : Nat)
    (hstate : f.state = .waitForCommand step ctx)
    (hrec : ¬ Flash.recognized step (addr % 0x10000) dat ctx) :
    f.write addr dat = some f := by
  obtain ⟨st, rm, bank, data, size⟩ := f
  simp only at hstate
  subst hstate
  simp only [Flash.write, Flash.recognized, not_or] at hrec ⊢
  obtain ⟨h1, h2, h3, h4, h5, h6, h7, h8, h9⟩ := hrec
  rw [if_neg h1, if_neg h2, if_neg h3, if_neg h4, if_neg h5, if_neg h6,
    if_neg h7, if_neg h8, if_neg h9]

/-- C10 witness: a write of `0x12` to address `0x100` in the idle state matches
no command pattern and leaves the concrete flash unchanged. -/
theorem c10_unrecognized_write_is_noop_witness :
    flash64.state = .waitForCommand 0 .none ∧
      ¬ Flash.recognized 0 (0x100 % 0x10000) 0x12 .none ∧
      flash64.write 0x100 0x12 = some flash64 :=
  ⟨rfl, by decide, c10_unrecognized_write_is_noop flash64 0 .none 0x100 0x12 rfl (by decide)⟩

/-! ## Timing lemmas -/

/-- One `tick_dot` from an in-frame position: the raster position advances by
one dot modulo a frame, every non-position timing field is preserved, and a
VBlank interrupt is raised exactly on the dot that enters line
`SCREEN_HEIGHT`, provided `vblank_irq_enable` is set. -/
theorem tickDot_timing (s : LcdTiming) (hx : s.x < DOTS_PER_LINE)
    (hy : s.y < LINES_PER_FRAME) :
    (tickDot s).1.x < DOTS_PER_LINE ∧ (tickDot s).1.y < LINES_PER_FRAME ∧
      pos (tickDot s).1 = (pos s + 1) % (LINES_PER_FRAME * DOTS_PER_LINE) ∧
      (tickDot s).1.vblank_irq_enable = s.vblank_irq_enable ∧
      (tickDot s).1.hblank_irq_enable = s.hblank_irq_enable ∧
      (tickDot s).1.vcount_irq_enable = s.vcount_irq_enable ∧
      (tickDot s).1.vcount = s.vcount ∧
      (tickDot s).1.prev_clock = s.prev_clock ∧
      (tickDot s).1.fraction = s.fraction ∧
      (tickDot s).2.count .vblank =
        (if pos s = SCREEN_HEIGHT * DOTS_PER_LINE - 1 ∧ s.vblank_irq_enable = true
          then 1 else 0) := by
  unfold tickDot pos
  simp only [SCREEN_WIDTH, SCREEN_HEIGHT, DOTS_PER_LINE, LINES_PER_FRAME] at hx hy ⊢
  split_ifs <;>
    simp_all [List.count_append, List.count_cons, List.count_nil] <;>
    omega

/-- Unfolding of `vbHits` over one more dot. -/
theorem vbHits_succ (p n : Nat) :
    vbHits p (n + 1) = vbHits p n +
      (if (p + n) % (LINES_PER_FRAME * DOTS_PER_LINE)
          = SCREEN_HEIGHT * DOTS_PER_LINE - 1 then 1 else 0) := by
  unfold vbHits
  rw [List.range_succ, List.countP_append]
  simp [List.countP_cons]

/-- Additivity: `vbHits` splits over a sum of dot counts. -/
theorem vbHits_add (p m n : Nat) :
    vbHits p (m + n) = vbHits p m +
      vbHits ((p + m) % (LINES_PER_FRAME * DOTS_PER_LINE)) n := by
  induction n with
  | zero => simp [vbHits]
  | succ n ih =>
    rw [← Nat.add_assoc, vbHits_succ, vbHits_succ, ih, Nat.mod_add_mod]
    have hassoc : p + (m + n) = p + m + n := by omega
    rw [hassoc]
    omega

/-- A run of dots that never touches the VBlank transition position counts no
hits. -/
theorem vbHits_eq_zero (p n : Nat)
    (h : ∀ k, k < n → (p + k) % (LINES_PER_FRAME * DOTS_PER_LINE)
      ≠ SCREEN_HEIGHT * DOTS_PER_LINE - 1) :
    vbHits p n = 0 := by
  unfold vbHits
  rw [List.countP_eq_zero]
  intro a ha
  simp only [List.mem_range] at ha
  simpa using h a ha

/-- Over exactly one frame's worth of dots, the VBlank transition position is
crossed exactly once, wherever in the frame the run starts. -/
theorem vbHits_frame (p : Nat) (hp : p < LINES_PER_FRAME * DOTS_PER_LINE) :
    vbHits p (LINES_PER_FRAME * DOTS_PER_LINE) = 1 := by
  simp only [LINES_PER_FRAME, DOTS_PER_LINE, SCREEN_HEIGHT] at *
  norm_num at *
  set k0 := (70224 + 49279 - p) % 70224 with hk0
  have h1 : k0 < 70224 := by omega
  have hsplit : (70224 : Nat) = k0 + (1 + (70224 - k0 - 1)) := by omega
  rw [hsplit, vbHits_add, vbHits_add]
  simp only [LINES_PER_FRAME, DOTS_PER_LINE, SCREEN_HEIGHT]
  norm_num
  have hz1 : vbHits p k0 = 0 := by
    apply vbHits_eq_zero
    simp only [LINES_PER_FRAME, DOTS_PER_LINE, SCREEN_HEIGHT]
    norm_num
    intro k hk
    omega
  have hq : (p + k0) % 70224 = 49279 := by omega
  have hone : vbHits ((p + k0) % 70224) 1 = 1 := by
    rw [hq]
    decide
  have hz2 : vbHits ((p + k0 + 1) % 70224) (70224 - k0 - 1) = 0 := by
    apply vbHits_eq_zero
    simp only [LINES_PER_FRAME, DOTS_PER_LINE, SCREEN_HEIGHT]
    norm_num
    intro k hk
    omega
  omega

/-- Iterating `tick_dot` `n` times from an in-frame position: the position
advances by `n` dots modulo a frame, the non-position timing fields are
preserved, and (when the VBlank IRQ is enabled) the number of VBlank
interrupts raised equals the number of frame-transition dots crossed. -/
theorem tickDots_timing (n : Nat) (s : LcdTiming) (hx : s.x < DOTS_PER_LINE)
    (hy : s.y < LINES_PER_FRAME) :
    (tickDots n s).1.x < DOTS_PER_LINE ∧ (tickDots n s).1.y < LINES_PER_FRAME ∧
      pos (tickDots n s).1 = (pos s + n) % (LINES_PER_FRAME * DOTS_PER_LINE) ∧
      (tickDots n s).1.vblank_irq_enable = s.vblank_irq_enable ∧
      (tickDots n s).1.hblank_irq_enable = s.hblank_irq_enable ∧
      (tickDots n s).1.vcount_irq_enable = s.vcount_irq_enable ∧
      (tickDots n s).1.vcount = s.vcount ∧
      (tickDots n s).1.prev_clock = s.prev_clock ∧
      (tickDots n s).1.fraction = s.fraction ∧
      (s.vblank_irq_enable = true →
        (tickDots n s).2.count .vblank = vbHits (pos s) n) := by
  induction n with
  | zero =>
    refine ⟨hx, hy, ?_, rfl, rfl, rfl, rfl, rfl, rfl, fun _ => rfl⟩
    have hlt : pos s < LINES_PER_FRAME * DOTS_PER_LINE := by
      unfold pos
      simp only [DOTS_PER_LINE, LINES_PER_FRAME] at *
      omega
    simp only [Nat.add_zero, Nat.mod_eq_of_lt hlt]
    rfl
  | succ n ih =>
    obtain ⟨ihx, ihy, ihpos, ihv, ihh, ihc, ihvc, ihp, ihf, ihcount⟩ := ih
    obtain ⟨tx, ty, tpos, tv, th, tc, tvc, tp, tf, tcount⟩ :=
      tickDot_timing (tickDots n s).1 ihx ihy
    have e1 : (tickDots (n + 1) s).1 = (tickDot (tickDots n s).1).1 := rfl
    have e2 : (tickDots (n + 1) s).2
        = (tickDots n s).2 ++ (tickDot (tickDots n s).1).2 := rfl
    rw [e1, e2]
    refine ⟨tx, ty, ?_, by rw [tv, ihv], by rw [th, ihh], by rw [tc, ihc],
      by rw [tvc, ihvc], by rw [tp, ihp], by rw [tf, ihf], ?_⟩
    · rw [tpos, ihpos, Nat.mod_add_mod, Nat.add_assoc]
    · intro hen
      rw [List.count_append, ihcount hen, tcount, ihpos, ihv, hen,
        vbHits_succ]
      simp

/-- One `tick` call with a monotone clock: the invariant is preserved, the
position advances by `(fraction + elapsed) / CLOCK_PER_DOT` dots, the clock
bookkeeping fields are updated as in the source, and the VBlank interrupts
raised are counted by `vbHits`. -/
theorem tick_timing (s : LcdTiming) (now : Nat) (_hmono : s.prev_clock ≤ now)
    (hinv : InvT s) :
    InvT (tick s now).1 ∧
      pos (tick s now).1
        = (pos s + (s.fraction + (now - s.prev_clock)) / CLOCK_PER_DOT)
          % (LINES_PER_FRAME * DOTS_PER_LINE) ∧
      (tick s now).1.prev_clock = now ∧
      (tick s now).1.fraction
        = (s.fraction + (now - s.prev_clock)) % CLOCK_PER_DOT ∧
      (tick s now).1.vblank_irq_enable = s.vblank_irq_enable ∧
      (tick s now).1.hblank_irq_enable = s.hblank_irq_enable ∧
      (tick s now).1.vcount_irq_enable = s.vcount_irq_enable ∧
      (tick s now).1.vcount = s.vcount ∧
      (s.vblank_irq_enable = true →
        (tick s now).2.count .vblank
          = vbHits (pos s) ((s.fraction + (now - s.prev_clock)) / CLOCK_PER_DOT)) := by
  obtain ⟨hx, hy, hf⟩ := hinv
  obtain ⟨tx, ty, tpos, tv, th, tc, tvc, tp, tf, tcount⟩ :=
    tickDots_timing ((s.fraction + (now - s.prev_clock)) / CLOCK_PER_DOT)
      { s with prev_clock := now
               fraction := (s.fraction + (now - s.prev_clock)) % CLOCK_PER_DOT }
      hx hy
  have e1 : (tick s now).1
      = (tickDots ((s.fraction + (now - s.prev_clock)) / CLOCK_PER_DOT)
          { s with prev_clock := now
                   fraction := (s.fraction + (now - s.prev_clock)) % CLOCK_PER_DOT }).1 := rfl
  have e2 : (tick s now).2
      = (tickDots ((s.fraction + (now - s.prev_clock)) / CLOCK_PER_DOT)
          { s with prev_clock := now
                   fraction := (s.fraction + (now - s.prev_clock)) % CLOCK_PER_DOT }).2 := rfl
  rw [e1, e2]
  have hfrac : (s.fraction + (now - s.prev_clock)) % CLOCK_PER_DOT < CLOCK_PER_DOT := by
    simp only [CLOCK_PER_DOT]
    omega
  exact ⟨⟨tx, ty, by rw [tf]; exact hfrac⟩, tpos, tp, tf, tv, th, tc, tvc, tcount⟩

/-- A non-decreasing chain starting at `a` ends at a value at least `a`. -/
theorem chain_le_getLastD (a : Nat) (l : List Nat)
    (h : List.Chain' (· ≤ ·) (a :: l)) : a ≤ l.getLastD a := by
  induction l generalizing a with
  | nil => simp
  | cons b t ih =>
    rw [List.getLastD_cons]
    exact le_trans (List.chain'_cons.mp h).1 (ih b (List.chain'_cons.mp h).2)

/-- A sequence of `tick` calls at non-decreasing clock values: the timing
invariant is preserved, the clock bookkeeping advances to the last `now`, and
(when the VBlank IRQ is enabled) the VBlank interrupts raised across the whole
run are counted by `vbHits` over the total number of dots consumed. -/
theorem runTicks_timing (nows : List Nat) (s : LcdTiming) (hinv : InvT s)
    (hchain : List.Chain' (· ≤ ·) (s.prev_clock :: nows)) :
    InvT (runTicks s nows).1 ∧
      (runTicks s nows).1.prev_clock = nows.getLastD s.prev_clock ∧
      (runTicks s nows).1.fraction
        = (s.fraction + (nows.getLastD s.prev_clock - s.prev_clock)) % CLOCK_PER_DOT ∧
      (runTicks s nows).1.vblank_irq_enable = s.vblank_irq_enable ∧
      (s.vblank_irq_enable = true →
        (runTicks s nows).2.count .vblank
          = vbHits (pos s)
              ((s.fraction + (nows.getLastD s.prev_clock - s.prev_clock)) / CLOCK_PER_DOT)) := by
  induction nows generalizing s with
  | nil =>
    obtain ⟨hx, hy, hf⟩ := hinv
    have hd : ([] : List Nat).getLastD s.prev_clock = s.prev_clock := rfl
    rw [hd]
    have h0 : (s.fraction + (s.prev_clock - s.prev_clock)) / CLOCK_PER_DOT = 0 := by
      simp only [CLOCK_PER_DOT] at *
      omega
    have h0' : (s.fraction + (s.prev_clock - s.prev_clock)) % CLOCK_PER_DOT = s.fraction := by
      simp only [CLOCK_PER_DOT] at *
      omega
    exact ⟨⟨hx, hy, hf⟩, rfl, h0'.symm, rfl, fun _ => by rw [h0]; rfl⟩
  | cons now rest ih =>
    have h1 : s.prev_clock ≤ now := (List.chain'_cons.mp hchain).1
    have h2 : List.Chain' (· ≤ ·) (now :: rest) := (List.chain'_cons.mp hchain).2
    obtain ⟨tinv, tpos, tprev, tfrac, tv, th, tc, tvc, tcount⟩ :=
      tick_timing s now h1 hinv
    have h2' : List.Chain' (· ≤ ·) ((tick s now).1.prev_clock :: rest) := by
      rw [tprev]; exact h2
    obtain ⟨rinv, rprev, rfrac, rv, rcount⟩ := ih (tick s now).1 tinv h2'
    rw [tprev] at rprev rfrac rcount
    have hG : now ≤ rest.getLastD now := chain_le_getLastD now rest h2
    have e1 : (runTicks s (now :: rest)).1 = (runTicks (tick s now).1 rest).1 := rfl
    have e2 : (runTicks s (now :: rest)).2
        = (tick s now).2 ++ (runTicks (tick s now).1 rest).2 := rfl
    have eG : (now :: rest).getLastD s.prev_clock = rest.getLastD now :=
      List.getLastD_cons ..
    rw [e1, e2, eG]
    refine ⟨rinv, rprev, ?_, by rw [rv, tv], fun hen => ?_⟩
    · rw [rfrac, tfrac]
      simp only [CLOCK_PER_DOT]
      omega
    · have hen1 : (tick s now).1.vblank_irq_enable = true := by rw [tv]; exact hen
      rw [List.count_append, tcount hen, rcount hen1, tfrac, tpos, ← vbHits_add]
      congr 1
      simp only [CLOCK_PER_DOT]
      omega

/-! ## Claim theorems for the timing engine -/

/-- Decomposition of an in-frame dot position into its line and dot. -/
theorem xy_from_pos (s : LcdTiming) (q r : Nat) (hX : s.x < DOTS_PER_LINE)
    (hr : r < DOTS_PER_LINE) (h : pos s = q * DOTS_PER_LINE + r) :
    s.y = q ∧ s.x = r := by
  unfold pos DOTS_PER_LINE at *
  constructor <;> omega

/-- On line `SCREEN_HEIGHT` the `hblank()` signal is false, whatever `x`
is. -/
theorem hblank_false_on_vblank_line (s : LcdTiming) (h : s.y = 160) :
    s.hblank = false := by
  unfold LcdTiming.hblank
  rw [h]
  rw [decide_eq_false_iff_not]
  intro hc
  exact absurd hc.1 (by norm_num [SCREEN_HEIGHT])

/-- With the VBlank IRQ enable bit clear (and the HBlank IRQ enable bit
clear), a dot advance raises no interrupt at all — in particular never a
VCount interrupt, whatever `vcount` and `vcount_irq_enable` are. This is the
consequence of the nested conditional of lcd.rs lines 285–289. -/
theorem tickDot_silent_when_vblank_disabled (s : LcdTiming)
    (hv : s.vblank_irq_enable = false) (hh : s.hblank_irq_enable = false) :
    (tickDot s).2 = [] := by
  simp only [tickDot]
  split_ifs <;> simp_all

/-- Preservation: `tick_dot` never changes the IRQ enable bits. -/
theorem tickDot_enables (s : LcdTiming) :
    (tickDot s).1.vblank_irq_enable = s.vblank_irq_enable ∧
      (tickDot s).1.hblank_irq_enable = s.hblank_irq_enable := by
  simp only [tickDot]
  split_ifs <;> exact ⟨rfl, rfl⟩

/-- With the VBlank and HBlank IRQ enable bits clear, any number of dot
advances raises no interrupt. -/
theorem tickDots_silent_when_vblank_disabled (n : Nat) (s : LcdTiming)
    (hv : s.vblank_irq_enable = false) (hh : s.hblank_irq_enable = false) :
    (tickDots n s).2 = [] ∧
      (tickDots n s).1.vblank_irq_enable = false ∧
      (tickDots n s).1.hblank_irq_enable = false := by
  induction n with
  | zero => exact ⟨rfl, hv, hh⟩
  | succ n ih =>
    obtain ⟨ihl, ihv, ihh⟩ := ih
    have e1 : (tickDots (n + 1) s).2
        = (tickDots n s).2 ++ (tickDot (tickDots n s).1).2 := rfl
    have e2 : (tickDots (n + 1) s).1 = (tickDot (tickDots n s).1).1 := rfl
    obtain ⟨ev, eh⟩ := tickDot_enables (tickDots n s).1
    refine ⟨?_, ?_, ?_⟩
    · rw [e1, ihl, tickDot_silent_when_vblank_disabled _ ihv ihh]
      rfl
    · rw [e2, ev, ihv]
    · rw [e2, eh, ihh]

/-- With the VBlank and HBlank IRQ enable bits clear, a `tick` call raises no
interrupt, whatever `vcount` and `vcount_irq_enable` are. -/
theorem tick_silent_when_vblank_disabled (s : LcdTiming) (now : Nat)
    (hv : s.vblank_irq_enable = false) (hh : s.hblank_irq_enable = false) :
    (tick s now).2 = [] := by
  have e : (tick s now).2
      = (tickDots ((s.fraction + (now - s.prev_clock)) / CLOCK_PER_DOT)
          { s with prev_clock := now
                   fraction := (s.fraction + (now - s.prev_clock)) % CLOCK_PER_DOT }).2 := rfl
  rw [e]
  exact (tickDots_silent_when_vblank_disabled _ _ (by exact hv) (by exact hh)).1

/-- C1 (code_bug evidence): start from reset, write `0x0120` to DISPSTAT
(vcount_compare = 1, VCount IRQ enabled, VBlank IRQ disabled) and tick to the
last dot of scanline 0 (`x = 307`, `y = 0`); the next tick advances one dot,
wrapping `y` to 1, which equals `vcount_compare` with the VCount IRQ enable
bit set — yet no interrupt at all is raised, because lcd.rs lines 285–289
additionally require `vblank_irq_enable`. The claim (and the spec) require a
VCount interrupt here. -/
theorem c1_vcount_requires_vblank_enable :
    (tick (initLcdT.writeDispstat 0x0120) 1228).1.vcount_irq_enable = true ∧
      (tick (initLcdT.writeDispstat 0x0120) 1228).1.vblank_irq_enable = false ∧
      (tick (initLcdT.writeDispstat 0x0120) 1228).1.x = 307 ∧
      (tick (initLcdT.writeDispstat 0x0120) 1228).1.y = 0 ∧
      (tick (initLcdT.writeDispstat 0x0120) 1228).1.vcount = 1 ∧
      (tick (tick (initLcdT.writeDispstat 0x0120) 1228).1 1232).1.y = 1 ∧
      (tick (tick (initLcdT.writeDispstat 0x0120) 1228).1 1232).2 = [] := by
  obtain ⟨hinv1, hpos1, hprev1, hfrac1, hv1, hh1, hc1, hvc1, -⟩ :=
    tick_timing (initLcdT.writeDispstat 0x0120) 1228 (by decide) (by decide)
  have hinv1c := hinv1
  obtain ⟨hx1b, hy1b, -⟩ := hinv1c
  have h307 : (pos (initLcdT.writeDispstat 0x0120)
      + ((initLcdT.writeDispstat 0x0120).fraction
          + (1228 - (initLcdT.writeDispstat 0x0120).prev_clock)) / CLOCK_PER_DOT)
      % (LINES_PER_FRAME * DOTS_PER_LINE) = 0 * DOTS_PER_LINE + 307 := by
    norm_num [pos, initLcdT, LcdTiming.writeDispstat, CLOCK_PER_DOT,
      DOTS_PER_LINE, LINES_PER_FRAME]
  have hposs1 : pos (tick (initLcdT.writeDispstat 0x0120) 1228).1
      = 0 * DOTS_PER_LINE + 307 := hpos1.trans h307
  obtain ⟨hy1, hx1⟩ :=
    xy_from_pos _ 0 307 hx1b (by norm_num [DOTS_PER_LINE]) hposs1
  have hbv : (tick (initLcdT.writeDispstat 0x0120) 1228).1.vblank_irq_enable = false := by
    rw [hv1]; rfl
  have hbh : (tick (initLcdT.writeDispstat 0x0120) 1228).1.hblank_irq_enable = false := by
    rw [hh1]; rfl
  have hfrac1z : (tick (initLcdT.writeDispstat 0x0120) 1228).1.fraction = 0 := by
    rw [hfrac1]
    norm_num [initLcdT, LcdTiming.writeDispstat, CLOCK_PER_DOT]
  obtain ⟨hinv2, hpos2, -, -, -, -, -, -, -⟩ :=
    tick_timing (tick (initLcdT.writeDispstat 0x0120) 1228).1 1232
      (by rw [hprev1]; norm_num) hinv1
  obtain ⟨hx2b, hy2b, -⟩ := hinv2
  rw [hposs1, hfrac1z, hprev1] at hpos2
  have h308 : (0 * DOTS_PER_LINE + 307 + (0 + (1232 - 1228)) / CLOCK_PER_DOT)
      % (LINES_PER_FRAME * DOTS_PER_LINE) = 1 * DOTS_PER_LINE + 0 := by
    norm_num [CLOCK_PER_DOT, DOTS_PER_LINE, LINES_PER_FRAME]
  obtain ⟨hy2, hx2⟩ :=
    xy_from_pos _ 1 0 hx2b (by norm_num [DOTS_PER_LINE]) (hpos2.trans h308)
  have hy1' : (tick (initLcdT.writeDispstat 0x0120) 1228).1.y = 0 := by
    rw [hy1]
  have hx1' : (tick (initLcdT.writeDispstat 0x0120) 1228).1.x = 307 := by
    rw [hx1]
  refine ⟨by rw [hc1]; rfl, hbv, hx1', hy1', by rw [hvc1]; rfl, by rw [hy2], ?_⟩
  exact tick_silent_when_vblank_disabled _ 1232 hbv hbh

/-- C2 counterexample: the claim asserts that after a dot advance, any
reachable state with `y ≥ SCREEN_HEIGHT` and `x ≥ SCREEN_WIDTH` has both
`vblank()` and `hblank()` true. A single `tick` from reset to clock
`198080 = (160 * 308 + 240) * 4` lands exactly on such a state
(`y = 160`, `x = 240`), where `hblank()` is false, because `hblank()`
requires `y < SCREEN_HEIGHT` (lcd.rs lines 308–310). -/
theorem c2_counterexample :
    SCREEN_HEIGHT ≤ (tick initLcdT 198080).1.y ∧
      SCREEN_WIDTH ≤ (tick initLcdT 198080).1.x ∧
      ¬((tick initLcdT 198080).1.vblank = true ∧
        (tick initLcdT 198080).1.hblank = true) := by
  obtain ⟨hinv, hpos, -⟩ := tick_timing initLcdT 198080 (by decide) (by decide)
  obtain ⟨hx, hy, -⟩ := hinv
  have h49520 : (pos initLcdT
      + (initLcdT.fraction + (198080 - initLcdT.prev_clock)) / CLOCK_PER_DOT)
      % (LINES_PER_FRAME * DOTS_PER_LINE) = 160 * DOTS_PER_LINE + 240 := by
    norm_num [pos, initLcdT, CLOCK_PER_DOT, DOTS_PER_LINE, LINES_PER_FRAME]
  obtain ⟨hy160, hx240⟩ :=
    xy_from_pos _ 160 240 hx (by norm_num [DOTS_PER_LINE]) (hpos.trans h49520)
  refine ⟨?_, ?_, ?_⟩
  · rw [hy160]; norm_num [SCREEN_HEIGHT]
  · rw [hx240]; norm_num [SCREEN_WIDTH]
  · intro hcontra
    have hb := hcontra.2
    rw [hblank_false_on_vblank_line _ hy160] at hb
    exact Bool.false_ne_true hb

/-- C2 amended: after a dot advance, in any state with `y ≥ SCREEN_HEIGHT` and
`x ≥ SCREEN_WIDTH`, `vblank()` returns true and `hblank()` returns false
(`hblank()` holds only on visible lines). Proven for every state, which
includes all reachable ones. -/
theorem c2_blank_flags_amended (s : LcdTiming) (hy : SCREEN_HEIGHT ≤ s.y)
    (_hx : SCREEN_WIDTH ≤ s.x) :
    s.vblank = true ∧ s.hblank = false := by
  unfold LcdTiming.vblank LcdTiming.hblank
  simp only [SCREEN_HEIGHT, SCREEN_WIDTH] at *
  constructor
  · simpa using hy
  · simp
    omega

/-- C2 amended witness: the flags evaluated at the concrete state
`x = 240, y = 160`. -/
theorem c2_blank_flags_amended_witness :
    SCREEN_HEIGHT ≤ ({ initLcdT with x := 240, y := 160 } : LcdTiming).y ∧
      SCREEN_WIDTH ≤ ({ initLcdT with x := 240, y := 160 } : LcdTiming).x ∧
      (({ initLcdT with x := 240, y := 160 } : LcdTiming).vblank = true ∧
        ({ initLcdT with x := 240, y := 160 } : LcdTiming).hblank = false) :=
  ⟨by decide, by decide,
    c2_blank_flags_amended { initLcdT with x := 240, y := 160 } (by decide) (by decide)⟩

/-- C4: for every sequence of `tick` calls with monotonically non-decreasing
`now` values, starting from the reset state, after each call (i.e. after every
prefix of the sequence) `0 ≤ x < DOTS_PER_LINE` and
`0 ≤ y < LINES_PER_FRAME`. -/
theorem c4_position_invariant (nows : List Nat) (n : Nat)
    (hchain : List.Chain' (· ≤ ·) (initLcdT.prev_clock :: nows)) :
    (0 ≤ (runTicks initLcdT (nows.take n)).1.x ∧
        (runTicks initLcdT (nows.take n)).1.x < DOTS_PER_LINE) ∧
      (0 ≤ (runTicks initLcdT (nows.take n)).1.y ∧
        (runTicks initLcdT (nows.take n)).1.y < LINES_PER_FRAME) := by
  have hchain' : List.Chain' (· ≤ ·) (initLcdT.prev_clock :: nows.take n) := by
    have h := hchain.take (n + 1)
    rwa [List.take_succ_cons] at h
  have hinv := (runTicks_timing (nows.take n) initLcdT (by decide) hchain').1
  exact ⟨⟨Nat.zero_le _, hinv.1⟩, ⟨Nat.zero_le _, hinv.2.1⟩⟩

/-- C4 witness: the invariant after the first of two tick calls at clocks 4
and 10. -/
theorem c4_position_invariant_witness :
    List.Chain' (· ≤ ·) (initLcdT.prev_clock :: [4, 10]) ∧
      ((0 ≤ (runTicks initLcdT ([4, 10].take 1)).1.x ∧
          (runTicks initLcdT ([4, 10].take 1)).1.x < DOTS_PER_LINE) ∧
        (0 ≤ (runTicks initLcdT ([4, 10].take 1)).1.y ∧
          (runTicks initLcdT ([4, 10].take 1)).1.y < LINES_PER_FRAME)) :=
  ⟨by norm_num [List.chain'_cons, List.chain'_singleton, initLcdT],
    c4_position_invariant [4, 10] 1
      (by norm_num [List.chain'_cons, List.chain'_singleton, initLcdT])⟩

/-- C6: with the VBlank IRQ enable bit held set, over any interval of exactly
`LINES_PER_FRAME * DOTS_PER_LINE * CLOCK_PER_DOT` master-clock ticks consumed
by a sequence of `tick` calls (non-decreasing `now` values, the last landing
exactly at the end of the interval), exactly one VBlank interrupt is raised.
The start state is any state satisfying the timing invariant `InvT`, which
holds for every reachable state. -/
theorem c6_one_vblank_per_frame (s : LcdTiming) (nows : List Nat)
    (hinv : InvT s) (hen : s.vblank_irq_enable = true)
    (hchain : List.Chain' (· ≤ ·) (s.prev_clock :: nows))
    (hlast : nows.getLastD s.prev_clock
      = s.prev_clock + LINES_PER_FRAME * DOTS_PER_LINE * CLOCK_PER_DOT) :
    (runTicks s nows).2.count .vblank = 1 := by
  obtain ⟨-, -, -, -, hcount⟩ := runTicks_timing nows s hinv hchain
  rw [hcount hen, hlast]
  have hp : pos s < LINES_PER_FRAME * DOTS_PER_LINE := by
    obtain ⟨hx, hy, -⟩ := hinv
    unfold pos
    simp only [DOTS_PER_LINE, LINES_PER_FRAME] at *
    omega
  have hn : (s.fraction +
      (s.prev_clock + LINES_PER_FRAME * DOTS_PER_LINE * CLOCK_PER_DOT - s.prev_clock))
        / CLOCK_PER_DOT = LINES_PER_FRAME * DOTS_PER_LINE := by
    obtain ⟨-, -, hf⟩ := hinv
    simp only [CLOCK_PER_DOT, DOTS_PER_LINE, LINES_PER_FRAME] at *
    omega
  rw [hn]
  exact vbHits_frame _ hp

/-- C6 witness: one frame interval consumed by a single tick call from reset
with the VBlank IRQ enabled yields exactly one VBlank interrupt. -/
theorem c6_one_vblank_per_frame_witness :
    InvT lcdVBlankEnabled ∧ lcdVBlankEnabled.vblank_irq_enable = true ∧
      List.Chain' (· ≤ ·) (lcdVBlankEnabled.prev_clock :: [280896]) ∧
      ([280896] : List Nat).getLastD lcdVBlankEnabled.prev_clock
        = lcdVBlankEnabled.prev_clock + LINES_PER_FRAME * DOTS_PER_LINE * CLOCK_PER_DOT ∧
      (runTicks lcdVBlankEnabled [280896]).2.count .vblank = 1 :=
  ⟨by decide, rfl,
    by norm_num [List.chain'_cons, List.chain'_singleton, lcdVBlankEnabled, initLcdT],
    by decide,
    c6_one_vblank_per_frame lcdVBlankEnabled [280896] (by decide) rfl
      (by norm_num [List.chain'_cons, List.chain'_singleton, lcdVBlankEnabled, initLcdT])
      (by decide)⟩

/-! ## Claim theorems for the register file and compositor -/

/-- C8: `read16` at each BGxCNT offset (`0x008`, `0x00A`, `0x00C`, `0x00E`)
returns the packed control value of the corresponding background, and that
packed value always has bits 4 and 5 set (the `4..=5 => !0` entry of the
`pack!` at lcd.rs line 357), for every register state — in particular
regardless of any value previously written to the offset, since `write16`
never stores those bits. -/
theorem c8_bgcnt_bits_4_5_always_set (l : Lcd) (b : Bg) :
    l.read16 0x008 = some (bgCntVal (l.bg 0)) ∧
      l.read16 0x00A = some (bgCntVal (l.bg 1)) ∧
      l.read16 0x00C = some (bgCntVal (l.bg 2)) ∧
      l.read16 0x00E = some (bgCntVal (l.bg 3)) ∧
      bgCntVal b / 2 ^ 4 % 2 = 1 ∧ bgCntVal b / 2 ^ 5 % 2 = 1 := by
  refine ⟨rfl, rfl, rfl, rfl, ?_, ?_⟩ <;>
  · have hm := Bool.toNat_le b.mosaic
    have hc := Bool.toNat_le b.color_mode
    have ha := Bool.toNat_le b.area_overflow
    unfold bgCntVal
    omega

/-- C9: a `write16` to the LOW half of an affine reference-point register
(offsets `0x028`, `0x02C`, `0x038`, `0x03C`) — not only the high half —
immediately overwrites the working copy `cx` (resp. `cy`) with the full
stored reference value, for every register state (hence independent of the
current vertical position). -/
theorem c9_reference_low_write_reloads_working_copy (l : Lcd) (d : Nat) :
    ((l.write16 0x028 d).map fun l' => ((l'.bg 2).cx, (l'.bg 2).x))
        = some ((l.bg 2).x / 2 ^ 16 * 2 ^ 16 + d % 2 ^ 16,
                (l.bg 2).x / 2 ^ 16 * 2 ^ 16 + d % 2 ^ 16) ∧
      ((l.write16 0x038 d).map fun l' => ((l'.bg 3).cx, (l'.bg 3).x))
        = some ((l.bg 3).x / 2 ^ 16 * 2 ^ 16 + d % 2 ^ 16,
                (l.bg 3).x / 2 ^ 16 * 2 ^ 16 + d % 2 ^ 16) ∧
      ((l.write16 0x02C d).map fun l' => ((l'.bg 2).cy, (l'.bg 2).y))
        = some ((l.bg 2).y / 2 ^ 16 * 2 ^ 16 + d % 2 ^ 16,
                (l.bg 2).y / 2 ^ 16 * 2 ^ 16 + d % 2 ^ 16) ∧
      ((l.write16 0x03C d).map fun l' => ((l'.bg 3).cy, (l'.bg 3).y))
        = some ((l.bg 3).y / 2 ^ 16 * 2 ^ 16 + d % 2 ^ 16,
                (l.bg 3).y / 2 ^ 16 * 2 ^ 16 + d % 2 ^ 16) :=
  ⟨rfl, rfl, rfl, rfl⟩

/-- Insertion via `put_surface_pixel` preserves the surface ordering invariant. -/
theorem putSurfacePixel_ord (lb : LineBuf) (x col attr : Nat)
    (h : surfOrd lb) : surfOrd (putSurfacePixel lb x col attr) := by
  unfold putSurfacePixel
  split_ifs with h1 h2
  · intro x'
    by_cases hx : x' = x
    · subst hx
      simp only []
      simp
      exact Nat.le_of_lt h1
    · simp [hx]
      exact h x'
  · intro x'
    by_cases hx : x' = x
    · subst hx
      simp
      exact Nat.le_of_not_lt h1
    · simp [hx]
      exact h x'
  · exact h

/-- Folding an invariant-preserving LineBuf transformer preserves the
invariant. -/
theorem foldl_surfOrd {α : Type} (f : LineBuf → α → LineBuf)
    (hf : ∀ lb a, surfOrd lb → surfOrd (f lb a)) :
    ∀ (xs : List α) (lb : LineBuf), surfOrd lb → surfOrd (xs.foldl f lb) := by
  intro xs
  induction xs with
  | nil => exact fun lb h => h
  | cons a t ih => exact fun lb h => ih _ (hf lb a h)

/-- One pixel step of `eval_priority` preserves the surface ordering
invariant. -/
theorem evalPriorityPixel_ord (l : Lcd) (lb : LineBuf) (x : Nat)
    (h : surfOrd lb) : surfOrd (evalPriorityPixel l lb x) := by
  unfold evalPriorityPixel
  refine foldl_surfOrd _ ?_ _ _ ?_
  · intro lb2 i h2
    dsimp only
    split_ifs <;> first | exact putSurfacePixel_ord _ _ _ _ h2 | exact h2
  · split_ifs <;> first | exact putSurfacePixel_ord _ _ _ _ h | exact h

/-- C5: the surface stack built by `eval_priority` is priority-sorted.
Conjuncts: (1) the cleared line buffer (both surface layers carrying the
backdrop attribute of priority 4) satisfies the ordering; (2) `eval_priority`
preserves the ordering at every pixel, whatever the background/object line
buffers contain; (3) hence after `eval_priority` on a cleared buffer the
ordering holds at every pixel; (4) every `put_surface_pixel` call preserves
the ordering; (5) a pixel whose priority ties with (or loses to) seated layer
0 never displaces layer 0; (6) a pixel that wins against neither layer leaves
the buffer entirely unchanged — ties resolve in favor of the already-seated
pixel. -/
theorem c5_surface_priority_sorted :
    (∀ (lb : LineBuf) (backdrop : Nat), surfOrd (lb.clear backdrop)) ∧
      (∀ l : Lcd, surfOrd l.line_buf → surfOrd (evalPriority l).line_buf) ∧
      (∀ (l : Lcd) (backdrop : Nat),
        surfOrd ((evalPriority { l with line_buf := l.line_buf.clear backdrop }).line_buf)) ∧
      (∀ (lb : LineBuf) (x col attr : Nat), surfOrd lb →
        surfOrd (putSurfacePixel lb x col attr)) ∧
      (∀ (lb : LineBuf) (x col attr : Nat),
        SurfaceAttr.priority (lb.surface_attr 0 x) ≤ SurfaceAttr.priority attr →
        (putSurfacePixel lb x col attr).surface_attr 0 x = lb.surface_attr 0 x ∧
          (putSurfacePixel lb x col attr).surface 0 x = lb.surface 0 x) ∧
      (∀ (lb : LineBuf) (x col attr : Nat),
        SurfaceAttr.priority (lb.surface_attr 0 x) ≤ SurfaceAttr.priority attr →
        SurfaceAttr.priority (lb.surface_attr 1 x) ≤ SurfaceAttr.priority attr →
        putSurfacePixel lb x col attr = lb) := by
  have hclear : ∀ (lb : LineBuf) (backdrop : Nat), surfOrd (lb.clear backdrop) := by
    intro lb backdrop x
    simp [LineBuf.clear]
  have heval : ∀ l : Lcd, surfOrd l.line_buf → surfOrd (evalPriority l).line_buf := by
    intro l h
    unfold evalPriority
    simp only
    exact foldl_surfOrd _ (fun lb x h' => evalPriorityPixel_ord l lb x h') _ _ h
  refine ⟨hclear, heval, ?_, fun lb x col attr h => putSurfacePixel_ord lb x col attr h,
    ?_, ?_⟩
  · intro l backdrop
    exact heval _ (hclear l.line_buf backdrop)
  · intro lb x col attr hle
    unfold putSurfacePixel
    split_ifs with h1 h2
    · exact absurd h1 (Nat.not_lt.mpr hle)
    · constructor <;> simp
    · exact ⟨rfl, rfl⟩
  · intro lb x col attr hle0 hle1
    unfold putSurfacePixel
    split_ifs with h1 h2
    · exact absurd h1 (Nat.not_lt.mpr hle0)
    · exact absurd h2 (Nat.not_lt.mpr hle1)
    · rfl

/-- C5 witness: the conjuncts instantiated on concrete buffers — the cleared
default line buffer, `eval_priority` on the reset LCD, and a concrete
tie-keeping `put_surface_pixel` call. -/
theorem c5_surface_priority_sorted_witness :
    surfOrd (LineBuf.default.clear 0) ∧
      surfOrd ((evalPriority Lcd.new).line_buf) ∧
      ((putSurfacePixel (LineBuf.default.clear 0) 3 9 7).surface_attr 0 3
          = (LineBuf.default.clear 0).surface_attr 0 3 ∧
        (putSurfacePixel (LineBuf.default.clear 0) 3 9 7).surface 0 3
          = (LineBuf.default.clear 0).surface 0 3) :=
  ⟨c5_surface_priority_sorted.1 LineBuf.default 0,
    c5_surface_priority_sorted.2.1 Lcd.new (fun _ => Nat.le_refl _),
    c5_surface_priority_sorted.2.2.2.2.1 (LineBuf.default.clear 0) 3 9 7 (by decide)⟩

end Tgba
